import Mathlib

/-!
# Verification of the Tic-Tac-Toe game engine (`src/app.js`)

A shallow embedding of the game engine found in `src/app.js`: the board
model `cells` (an array of nine values, each `null`, `'X'` or `'O'`), the
turn/finished/lock flags, the session score, the pure win evaluation
`checkWin`, the move validation `validateMove`, the cell click handler
(modelled as `applyMove`) and the reset handler (modelled as `reset`).

JavaScript `null` is modelled as `Option.none`; an out-of-bounds array
read, which yields `undefined` in JavaScript (distinct from `null` under
the `!==` comparison used by `validateMove`), is modelled by the value
`JsCellVal.undef` of the lookup function `jsGet`.
-/

/-- A player's mark: the string `'X'` or `'O'` in the source. -/
inductive Player where
  | X : Player
  | O : Player
deriving DecidableEq, Repr

/-- One board cell: `null` (empty), `'X'` or `'O'` in the source. -/
abbrev Cell := Option Player

/-- The session score object `{ X: 0, O: 0, draws: 0 }` of `src/app.js` line 5. -/
structure Score where
  X : Nat
  O : Nat
  draws : Nat
deriving DecidableEq, Repr

/-- The mutable game state held at module scope in `src/app.js`
(lines 47-50): the board `cells`, `currentPlayer`, `finished`,
`isProcessing`, together with the session `score` (line 5). -/
structure GameState where
  cells : List Cell
  currentPlayer : Player
  finished : Bool
  isProcessing : Bool
  score : Score
deriving DecidableEq, Repr

/-- The predefined winning combinations `wins` of `src/app.js` lines 53-57:
three rows, three columns, two diagonals, in that order. -/
def wins : List (Nat × Nat × Nat) :=
  [(0, 1, 2), (3, 4, 5), (6, 7, 8),
   (0, 3, 6), (1, 4, 7), (2, 5, 8),
   (0, 4, 8), (2, 4, 6)]

/-- The result object returned by `checkWin` when the game is over:
`{ winner, combo }` or `{ draw: true }` (`src/app.js` lines 59-75). -/
inductive GameResult where
  | winner (p : Player) (combo : Nat × Nat × Nat) : GameResult
  | draw : GameResult
deriving DecidableEq, Repr

/-- Reading `cells[i]` inside `checkWin`, where only truthiness and
equality of the values matter: an out-of-range read (`undefined`) and a
`null` cell are both falsy, so both map to `none`. -/
def cellAt (cells : List Cell) (i : Nat) : Cell :=
  (cells.get? i).join

/-- The loop body plus final checks of `checkWin` (`src/app.js` lines
66-75), recursing over the remaining combos: for each combo `[a,b,c]`, if
`cells[a]` is truthy and equals `cells[b]` and `cells[c]`, return that
winner and combo; after the loop, return draw iff every cell is truthy. -/
def checkWinAux (cells : List Cell) : List (Nat × Nat × Nat) → Option GameResult
  | [] => if cells.all Option.isSome then some GameResult.draw else none
  | (a, b, c) :: rest =>
    match cellAt cells a with
    | some p =>
      if cellAt cells b = some p ∧ cellAt cells c = some p then
        some (GameResult.winner p (a, b, c))
      else checkWinAux cells rest
    | none => checkWinAux cells rest

/-- `checkWin()` of `src/app.js` lines 66-75, as a pure function of the
board it reads. -/
def checkWin (cells : List Cell) : Option GameResult :=
  checkWinAux cells wins

/-- The value of a JavaScript indexed read `cells[idx]` as `validateMove`
observes it with `!== null`: `undefined` for an out-of-range index,
`null` for an empty in-range cell, or the occupying mark. -/
inductive JsCellVal where
  | undef : JsCellVal
  | nullv : JsCellVal
  | mark (p : Player) : JsCellVal
deriving DecidableEq, Repr

/-- The indexed read `cells[idx]` (index may be any integer): in range it
yields the cell content, out of range it yields `undefined`. -/
def jsGet (cells : List Cell) (idx : Int) : JsCellVal :=
  if 0 ≤ idx then
    match cells.get? idx.toNat with
    | some none => JsCellVal.nullv
    | some (some p) => JsCellVal.mark p
    | none => JsCellVal.undef
  else JsCellVal.undef

/-- The distinguishable rejection reasons of `validateMove`
(`src/app.js` lines 151-167): `isProcessing` held, game `finished`, or
`cells[idx] !== null` (carrying the value read, as the source reports it
in its feedback message). -/
inductive MoveFailure where
  | busy : MoveFailure
  | gameOver : MoveFailure
  | cellOccupied (occupant : JsCellVal) : MoveFailure
deriving DecidableEq, Repr

/-- `validateMove(idx)` of `src/app.js` lines 151-167: returns the first
failing check in the order processing-lock, finished, occupied cell, or
`none` when the move may proceed (the source returns `false`/`true`;
the failure branch taken is modelled as the reported reason). -/
def validateMove (s : GameState) (idx : Int) : Option MoveFailure :=
  if s.isProcessing then some MoveFailure.busy
  else if s.finished then some MoveFailure.gameOver
  else
    match jsGet s.cells idx with
    | JsCellVal.nullv => none
    | v => some (MoveFailure.cellOccupied v)

/-- The assignment `cells[idx] = currentPlayer` (`src/app.js` line 191).
At its only call site the index has been validated (`cells[idx] === null`),
hence is in range, so the in-range update suffices. -/
def setCell (cells : List Cell) (idx : Int) (p : Player) : List Cell :=
  if 0 ≤ idx then cells.set idx.toNat (some p) else cells

/-- `currentPlayer = currentPlayer === 'X' ? 'O' : 'X'`
(`src/app.js` line 219). -/
def togglePlayer (p : Player) : Player :=
  match p with
  | Player.X => Player.O
  | Player.O => Player.X

/-- The score update on a terminal move (`src/app.js` lines 206 and 211):
`score[result.winner]++` on a win, `score.draws++` on a draw. -/
def bumpScore (sc : Score) (r : GameResult) : Score :=
  match r with
  | GameResult.winner Player.X _ => { sc with X := sc.X + 1 }
  | GameResult.winner Player.O _ => { sc with O := sc.O + 1 }
  | GameResult.draw => { sc with draws := sc.draws + 1 }

/-- The outcome of one cell click as observable from the handler's
control flow: rejected by `validateMove`, game ended with `checkWin`'s
result, or game continued with the next player. -/
inductive MoveOutcome where
  | rejected (r : MoveFailure) : MoveOutcome
  | ended (r : GameResult) : MoveOutcome
  | continued (next : Player) : MoveOutcome
deriving DecidableEq, Repr

/-- The cell click handler of `src/app.js` lines 184-225: validate, set
`isProcessing`, write the mark, evaluate `checkWin`; on a result set
`finished` and bump the score, otherwise toggle the player; clear
`isProcessing` before returning. Returns the new state and the outcome. -/
def applyMove (s : GameState) (idx : Int) : GameState × MoveOutcome :=
  match validateMove s idx with
  | some r => (s, MoveOutcome.rejected r)
  | none =>
    let cells' := setCell s.cells idx s.currentPlayer
    match checkWin cells' with
    | some result =>
      ({ cells := cells', currentPlayer := s.currentPlayer, finished := true,
         isProcessing := false, score := bumpScore s.score result },
       MoveOutcome.ended result)
    | none =>
      let next := togglePlayer s.currentPlayer
      ({ cells := cells', currentPlayer := next, finished := false,
         isProcessing := false, score := s.score },
       MoveOutcome.continued next)

/-- The reset button handler of `src/app.js` lines 240-256: the loop
`for i in 0..8, cells[i] = null`, then `finished = false`,
`isProcessing = false`, `currentPlayer = 'X'`; the score is not touched. -/
def reset (s : GameState) : GameState :=
  { cells := (List.range 9).foldl (fun cs i => cs.set i none) s.cells,
    currentPlayer := Player.X, finished := false, isProcessing := false,
    score := s.score }

/-- The initial state of `src/app.js` lines 5 and 47-50:
`Array(9).fill(null)`, player X, not finished, not processing, zero score. -/
def initialState : GameState :=
  { cells := List.replicate 9 none, currentPlayer := Player.X,
    finished := false, isProcessing := false,
    score := { X := 0, O := 0, draws := 0 } }

/-- An example mid-game state used in witnesses: cell 0 holds X, O to
move, game live, lock free, zero score. -/
def occupiedExample : GameState :=
  { cells := [some Player.X, none, none, none, none, none, none, none, none],
    currentPlayer := Player.O, finished := false, isProcessing := false,
    score := { X := 0, O := 0, draws := 0 } }

/-- An example state with the processing lock held, used in witnesses. -/
def lockedExample : GameState :=
  { cells := List.replicate 9 none, currentPlayer := Player.X,
    finished := true, isProcessing := true,
    score := { X := 0, O := 0, draws := 0 } }

/-- An example finished state with the lock free, used in witnesses. -/
def finishedExample : GameState :=
  { cells := List.replicate 9 none, currentPlayer := Player.X,
    finished := true, isProcessing := false,
    score := { X := 0, O := 0, draws := 0 } }

/-- An example part-played, finished, locked state with a nonzero score,
used in witnesses. -/
def playedExample : GameState :=
  { cells := [some Player.X, some Player.O, none, none, none, none, none, none, none],
    currentPlayer := Player.O, finished := true, isProcessing := true,
    score := { X := 2, O := 1, draws := 3 } }

/-- An example live state where X completes the first row by clicking
cell 2, used in witnesses. -/
def nearWinExample : GameState :=
  { cells := [some Player.X, some Player.X, none, some Player.O,
              some Player.O, none, none, none, none],
    currentPlayer := Player.X, finished := false, isProcessing := false,
    score := { X := 0, O := 0, draws := 0 } }

/-- The guard of the winner branch of `checkWin` for one combo, as a
Boolean predicate: all three cells hold the same non-empty mark. -/
def isWinningTriple (cells : List Cell) (t : Nat × Nat × Nat) : Bool :=
  match cellAt cells t.1 with
  | some p => decide (cellAt cells t.2.1 = some p ∧ cellAt cells t.2.2 = some p)
  | none => false

/-- The states reachable from engine initialization by any sequence of
cell clicks and reset clicks. -/
inductive Reachable : GameState → Prop where
  | init : Reachable initialState
  | move (s : GameState) (idx : Int) (h : Reachable s) :
      Reachable (applyMove s idx).1
  | reset (s : GameState) (h : Reachable s) : Reachable (reset s)

example : checkWin [some Player.X, some Player.X, some Player.X,
    none, none, none, none, none, none] =
    some (GameResult.winner Player.X (0, 1, 2)) := by decide

example : checkWin (List.replicate 9 none) = none := by decide

example : checkWin [some Player.X, some Player.X, some Player.O,
    some Player.O, some Player.O, some Player.X,
    some Player.X, some Player.X, some Player.O] =
    some GameResult.draw := by decide

example : (applyMove initialState 4).2 = MoveOutcome.continued Player.O := by decide

example : (applyMove initialState 9).2 =
    MoveOutcome.rejected (MoveFailure.cellOccupied JsCellVal.undef) := by decide

/-! ## Helper lemmas -/

lemma isWinningTriple_iff (cells : List Cell) (t : Nat × Nat × Nat) :
    isWinningTriple cells t = true ↔
      ∃ p, cellAt cells t.1 = some p ∧ cellAt cells t.2.1 = some p ∧
        cellAt cells t.2.2 = some p := by
  rcases t with ⟨a, b, c⟩
  rcases hca : cellAt cells a with _ | p <;> simp [isWinningTriple, hca]

lemma checkWinAux_find_winner (cells : List Cell) (ts : List (Nat × Nat × Nat))
    (t : Nat × Nat × Nat) (h : ts.find? (isWinningTriple cells) = some t) :
    ∃ p, cellAt cells t.1 = some p ∧ cellAt cells t.2.1 = some p ∧
      cellAt cells t.2.2 = some p ∧
      checkWinAux cells ts = some (GameResult.winner p t) := by
  induction ts with
  | nil => simp [List.find?] at h
  | cons hd rest ih =>
    rcases hd with ⟨a, b, c⟩
    by_cases hw : isWinningTriple cells (a, b, c) = true
    · rw [List.find?_cons_of_pos _ hw] at h
      obtain rfl : (a, b, c) = t := by injection h
      obtain ⟨p, hpa, hpb, hpc⟩ := (isWinningTriple_iff cells (a, b, c)).mp hw
      refine ⟨p, hpa, hpb, hpc, ?_⟩
      simp only [checkWinAux, hpa]
      rw [if_pos ⟨hpb, hpc⟩]
    · rw [List.find?_cons_of_neg _ (by simpa using hw)] at h
      obtain ⟨p, hpa, hpb, hpc, hrec⟩ := ih h
      refine ⟨p, hpa, hpb, hpc, ?_⟩
      rcases hca : cellAt cells a with _ | q
      · simpa only [checkWinAux, hca] using hrec
      · have hcond : ¬(cellAt cells b = some q ∧ cellAt cells c = some q) := by
          intro hc
          exact hw ((isWinningTriple_iff cells (a, b, c)).mpr ⟨q, hca, hc.1, hc.2⟩)
        simp only [checkWinAux, hca]
        rw [if_neg hcond]
        exact hrec

lemma checkWinAux_find_none (cells : List Cell) (ts : List (Nat × Nat × Nat))
    (h : ts.find? (isWinningTriple cells) = none) :
    checkWinAux cells ts =
      if cells.all Option.isSome then some GameResult.draw else none := by
  induction ts with
  | nil => rfl
  | cons hd rest ih =>
    rcases hd with ⟨a, b, c⟩
    have hw : ¬ isWinningTriple cells (a, b, c) = true := by
      intro hw
      rw [List.find?_cons_of_pos _ hw] at h
      exact Option.noConfusion h
    rw [List.find?_cons_of_neg _ (by simpa using hw)] at h
    rcases hca : cellAt cells a with _ | q
    · simpa only [checkWinAux, hca] using ih h
    · have hcond : ¬(cellAt cells b = some q ∧ cellAt cells c = some q) := by
        intro hc
        exact hw ((isWinningTriple_iff cells (a, b, c)).mpr ⟨q, hca, hc.1, hc.2⟩)
      simp only [checkWinAux, hca]
      rw [if_neg hcond]
      exact ih h

/-! ## Claim theorems -/

/-- C1: for every board in which some triple (row, column, or diagonal)
holds three identical non-Empty marks, `checkWin` returns that player as
winner together with the winning triple, and among multiple matching
triples it returns the first in the fixed order of `wins`: rows
top-to-bottom, then columns left-to-right, then the two diagonals
(firstness expressed by `List.find?` over `wins`). -/
theorem checkWin_first_winning_triple (cells : List Cell)
    (h : ∃ t, t ∈ wins ∧ isWinningTriple cells t = true) :
    ∃ p t, wins.find? (isWinningTriple cells) = some t ∧
      cellAt cells t.1 = some p ∧ cellAt cells t.2.1 = some p ∧
      cellAt cells t.2.2 = some p ∧
      checkWin cells = some (GameResult.winner p t) := by
  obtain ⟨t0, ht0, hw0⟩ := h
  have hsome : (wins.find? (isWinningTriple cells)).isSome := by
    rw [List.find?_isSome]
    exact ⟨t0, ht0, hw0⟩
  obtain ⟨t, ht⟩ := Option.isSome_iff_exists.mp hsome
  obtain ⟨p, hpa, hpb, hpc, hck⟩ := checkWinAux_find_winner cells wins t ht
  exact ⟨p, t, ht, hpa, hpb, hpc, hck⟩

/-- C1 witness: on the board `[X, X, X, _, _, _, _, _, _]` the evaluation
returns X as winner with the first row `(0, 1, 2)`. -/
theorem checkWin_first_winning_triple_witness :
    (∃ t, t ∈ wins ∧ isWinningTriple
      [some Player.X, some Player.X, some Player.X,
       none, none, none, none, none, none] t = true) ∧
    (∃ p t, wins.find? (isWinningTriple
        [some Player.X, some Player.X, some Player.X,
         none, none, none, none, none, none]) = some t ∧
      cellAt [some Player.X, some Player.X, some Player.X,
         none, none, none, none, none, none] t.1 = some p ∧
      cellAt [some Player.X, some Player.X, some Player.X,
         none, none, none, none, none, none] t.2.1 = some p ∧
      cellAt [some Player.X, some Player.X, some Player.X,
         none, none, none, none, none, none] t.2.2 = some p ∧
      checkWin [some Player.X, some Player.X, some Player.X,
         none, none, none, none, none, none] =
        some (GameResult.winner p t)) :=
  ⟨by decide, checkWin_first_winning_triple _ (by decide)⟩

/-- C2: on a 9-cell board with no winning triple, `checkWin` reports a
draw when every cell is non-Empty, and a null result (game continues)
when at least one cell is Empty. -/
theorem checkWin_draw_or_continue (cells : List Cell)
    (hlen : cells.length = 9)
    (hno : ∀ t ∈ wins, isWinningTriple cells t = false) :
    ((∀ c ∈ cells, c.isSome = true) → checkWin cells = some GameResult.draw) ∧
    ((∃ c ∈ cells, c = none) → checkWin cells = none) := by
  have hfind : wins.find? (isWinningTriple cells) = none := by
    rw [List.find?_eq_none]
    intro x hx
    simp [hno x hx]
  have hc := checkWinAux_find_none cells wins hfind
  constructor
  · intro hall
    rw [checkWin, hc, if_pos (List.all_eq_true.mpr hall)]
  · rintro ⟨c, hcmem, rfl⟩
    rw [checkWin, hc, if_neg]
    intro hall
    have := List.all_eq_true.mp hall _ hcmem
    simp at this

/-- C2 witness: a full drawn board yields `draw`, and a board with one
winless mark and empty cells yields `none`. -/
theorem checkWin_draw_or_continue_witness :
    ((List.length [some Player.X, some Player.X, some Player.O,
       some Player.O, some Player.O, some Player.X,
       some Player.X, some Player.X, some Player.O] = 9) ∧
     (∀ t ∈ wins, isWinningTriple [some Player.X, some Player.X, some Player.O,
       some Player.O, some Player.O, some Player.X,
       some Player.X, some Player.X, some Player.O] t = false) ∧
     checkWin [some Player.X, some Player.X, some Player.O,
       some Player.O, some Player.O, some Player.X,
       some Player.X, some Player.X, some Player.O] = some GameResult.draw) ∧
    ((List.length [some Player.X, none, none, none, none, none, none, none,
       (none : Cell)] = 9) ∧
     (∀ t ∈ wins, isWinningTriple [some Player.X, none, none, none, none,
       none, none, none, (none : Cell)] t = false) ∧
     checkWin [some Player.X, none, none, none, none, none, none, none,
       (none : Cell)] = none) :=
  ⟨⟨by decide, by decide,
    (checkWin_draw_or_continue _ (by decide) (by decide)).1 (by decide)⟩,
   ⟨by decide, by decide,
    (checkWin_draw_or_continue _ (by decide) (by decide)).2 (by decide)⟩⟩

lemma applyMove_of_validate_some (s : GameState) (idx : Int) (r : MoveFailure)
    (h : validateMove s idx = some r) :
    applyMove s idx = (s, MoveOutcome.rejected r) := by
  simp only [applyMove, h]

lemma applyMove_of_validate_none_ended (s : GameState) (idx : Int)
    (result : GameResult) (h : validateMove s idx = none)
    (hcw : checkWin (setCell s.cells idx s.currentPlayer) = some result) :
    applyMove s idx =
      ({ cells := setCell s.cells idx s.currentPlayer,
         currentPlayer := s.currentPlayer, finished := true,
         isProcessing := false, score := bumpScore s.score result },
       MoveOutcome.ended result) := by
  simp only [applyMove, h, hcw]

lemma applyMove_of_validate_none_continued (s : GameState) (idx : Int)
    (h : validateMove s idx = none)
    (hcw : checkWin (setCell s.cells idx s.currentPlayer) = none) :
    applyMove s idx =
      ({ cells := setCell s.cells idx s.currentPlayer,
         currentPlayer := togglePlayer s.currentPlayer, finished := false,
         isProcessing := false, score := s.score },
       MoveOutcome.continued (togglePlayer s.currentPlayer)) := by
  simp only [applyMove, h, hcw]

lemma validateMove_none_iff (s : GameState) (idx : Int) :
    validateMove s idx = none ↔
      s.isProcessing = false ∧ s.finished = false ∧
        jsGet s.cells idx = JsCellVal.nullv := by
  rw [validateMove]
  cases hp : s.isProcessing <;> cases hf : s.finished <;>
    cases hv : jsGet s.cells idx <;> simp

/-- C3: the cell click handler checks the preconditions in the fixed
order lock-held, game-over, cell-occupied; the first failing check
determines the reported failure (`busy`, then `gameOver`, then
`cellOccupied` with the value read at the cell), and only when all three
pass is the move not rejected. -/
theorem applyMove_precondition_order (s : GameState) (idx : Int) :
    (s.isProcessing = true →
      (applyMove s idx).2 = MoveOutcome.rejected MoveFailure.busy) ∧
    (s.isProcessing = false → s.finished = true →
      (applyMove s idx).2 = MoveOutcome.rejected MoveFailure.gameOver) ∧
    (∀ v, s.isProcessing = false → s.finished = false →
      jsGet s.cells idx = v → v ≠ JsCellVal.nullv →
      (applyMove s idx).2 =
        MoveOutcome.rejected (MoveFailure.cellOccupied v)) ∧
    (s.isProcessing = false → s.finished = false →
      jsGet s.cells idx = JsCellVal.nullv →
      ∀ r, (applyMove s idx).2 ≠ MoveOutcome.rejected r) := by
  refine ⟨?_, ?_, ?_, ?_⟩
  · intro hp
    rw [applyMove_of_validate_some s idx MoveFailure.busy (by rw [validateMove, if_pos (by simp [hp])])]
  · intro hp hf
    rw [applyMove_of_validate_some s idx MoveFailure.gameOver
      (by rw [validateMove, if_neg (by simp [hp]), if_pos (by simp [hf])])]
  · intro v hp hf hv hne
    have hval : validateMove s idx = some (MoveFailure.cellOccupied v) := by
      rw [validateMove, if_neg (by simp [hp]), if_neg (by simp [hf]), hv]
      cases v with
      | nullv => exact absurd rfl hne
      | undef => rfl
      | mark p => rfl
    rw [applyMove_of_validate_some s idx _ hval]
  · intro hp hf hv r
    have hval : validateMove s idx = none :=
      (validateMove_none_iff s idx).mpr ⟨hp, hf, hv⟩
    cases hcw : checkWin (setCell s.cells idx s.currentPlayer) with
    | some result =>
      rw [applyMove_of_validate_none_ended s idx result hval hcw]
      simp
    | none =>
      rw [applyMove_of_validate_none_continued s idx hval hcw]
      simp

/-- C3 witness: a held lock is rejected `busy` first; with the lock free
a finished game is rejected `gameOver`; with both clear an occupied cell
is rejected `cellOccupied X`; a fully valid click is not rejected. -/
theorem applyMove_precondition_order_witness :
    (applyMove lockedExample 0).2 = MoveOutcome.rejected MoveFailure.busy ∧
    (applyMove finishedExample 0).2 =
      MoveOutcome.rejected MoveFailure.gameOver ∧
    (applyMove occupiedExample 0).2 =
      MoveOutcome.rejected (MoveFailure.cellOccupied (JsCellVal.mark Player.X)) ∧
    ∀ r, (applyMove initialState 0).2 ≠ MoveOutcome.rejected r :=
  ⟨(applyMove_precondition_order lockedExample 0).1 rfl,
   (applyMove_precondition_order finishedExample 0).2.1 rfl rfl,
   (applyMove_precondition_order occupiedExample 0).2.2.1
     (JsCellVal.mark Player.X) rfl rfl (by decide) (by decide),
   (applyMove_precondition_order initialState 0).2.2.2 rfl rfl (by decide)⟩

/-- C4: a rejected click (busy, game over, or occupied cell) leaves the
whole state — board, current player, finished flag, lock, and all three
score counters — exactly as it was. -/
theorem applyMove_rejected_frame (s : GameState) (idx : Int)
    (r : MoveFailure)
    (h : (applyMove s idx).2 = MoveOutcome.rejected r) :
    (applyMove s idx).1 = s := by
  cases hval : validateMove s idx with
  | some r0 => rw [applyMove_of_validate_some s idx r0 hval]
  | none =>
    exfalso
    cases hcw : checkWin (setCell s.cells idx s.currentPlayer) with
    | some result =>
      rw [applyMove_of_validate_none_ended s idx result hval hcw] at h
      exact MoveOutcome.noConfusion h
    | none =>
      rw [applyMove_of_validate_none_continued s idx hval hcw] at h
      exact MoveOutcome.noConfusion h

/-- C4 witness: a click on the occupied cell 0 is rejected and the state
is unchanged. -/
theorem applyMove_rejected_frame_witness :
    (applyMove occupiedExample 0).2 =
      MoveOutcome.rejected (MoveFailure.cellOccupied (JsCellVal.mark Player.X)) ∧
    (applyMove occupiedExample 0).1 = occupiedExample :=
  ⟨by decide, applyMove_rejected_frame occupiedExample 0
    (MoveFailure.cellOccupied (JsCellVal.mark Player.X)) (by decide)⟩

lemma clearLoop_eq (cs : List Cell) (h : cs.length = 9) :
    (List.range 9).foldl (fun a i => a.set i none) cs =
      List.replicate 9 none := by
  rcases cs with _ | ⟨a0, cs⟩; · simp at h
  rcases cs with _ | ⟨a1, cs⟩; · simp at h
  rcases cs with _ | ⟨a2, cs⟩; · simp at h
  rcases cs with _ | ⟨a3, cs⟩; · simp at h
  rcases cs with _ | ⟨a4, cs⟩; · simp at h
  rcases cs with _ | ⟨a5, cs⟩; · simp at h
  rcases cs with _ | ⟨a6, cs⟩; · simp at h
  rcases cs with _ | ⟨a7, cs⟩; · simp at h
  rcases cs with _ | ⟨a8, cs⟩; · simp at h
  rcases cs with _ | ⟨a9, cs⟩
  · rfl
  · simp at h

/-- C5: after a reset the board is all Empty, the player to move is X,
the game is in progress (not finished), the processing lock is clear, and
the three score counters are unchanged. -/
theorem reset_spec (s : GameState) (hlen : s.cells.length = 9) :
    (reset s).cells = List.replicate 9 none ∧
    (reset s).currentPlayer = Player.X ∧
    (reset s).finished = false ∧
    (reset s).isProcessing = false ∧
    (reset s).score = s.score :=
  ⟨clearLoop_eq s.cells hlen, rfl, rfl, rfl, rfl⟩

/-- C5 witness: resetting a finished, locked, part-played state with a
nonzero score clears the board and flags but keeps the score. -/
theorem reset_spec_witness :
    playedExample.cells.length = 9 ∧
    (reset playedExample).cells = List.replicate 9 none ∧
    (reset playedExample).currentPlayer = Player.X ∧
    (reset playedExample).finished = false ∧
    (reset playedExample).isProcessing = false ∧
    (reset playedExample).score = playedExample.score :=
  ⟨by decide, (reset_spec playedExample (by decide)).1,
   (reset_spec playedExample (by decide)).2.1,
   (reset_spec playedExample (by decide)).2.2.1,
   (reset_spec playedExample (by decide)).2.2.2.1,
   (reset_spec playedExample (by decide)).2.2.2.2⟩

lemma togglePlayer_ne (p : Player) : togglePlayer p ≠ p := by
  cases p <;> decide

/-- C6: the game starts with X to move, a reset restores X to move, and
every accepted non-terminal click flips the player to move (X to O or O
to X), which is what makes accepted moves within a game alternate
strictly. -/
theorem turn_alternation (s : GameState) (idx : Int) (p : Player) :
    initialState.currentPlayer = Player.X ∧
    (reset s).currentPlayer = Player.X ∧
    ((applyMove s idx).2 = MoveOutcome.continued p →
      p = togglePlayer s.currentPlayer ∧
      togglePlayer s.currentPlayer ≠ s.currentPlayer ∧
      (applyMove s idx).1.currentPlayer = togglePlayer s.currentPlayer) := by
  refine ⟨rfl, rfl, ?_⟩
  intro hcont
  cases hval : validateMove s idx with
  | some r =>
    rw [applyMove_of_validate_some s idx r hval] at hcont
    exact absurd hcont (by simp)
  | none =>
    cases hcw : checkWin (setCell s.cells idx s.currentPlayer) with
    | some result =>
      rw [applyMove_of_validate_none_ended s idx result hval hcw] at hcont
      exact absurd hcont (by simp)
    | none =>
      rw [applyMove_of_validate_none_continued s idx hval hcw] at hcont
      have h2 : MoveOutcome.continued (togglePlayer s.currentPlayer) =
          MoveOutcome.continued p := hcont
      injection h2 with h2
      refine ⟨h2.symm, togglePlayer_ne s.currentPlayer, ?_⟩
      rw [applyMove_of_validate_none_continued s idx hval hcw]

/-- C6 witness: from the initial state, clicking cell 4 flips the player
to move from X to O. -/
theorem turn_alternation_witness :
    initialState.currentPlayer = Player.X ∧
    (reset initialState).currentPlayer = Player.X ∧
    (Player.O = togglePlayer initialState.currentPlayer ∧
     togglePlayer initialState.currentPlayer ≠ initialState.currentPlayer ∧
     (applyMove initialState 4).1.currentPlayer =
       togglePlayer initialState.currentPlayer) :=
  ⟨(turn_alternation initialState 4 Player.O).1,
   (turn_alternation initialState 4 Player.O).2.1,
   (turn_alternation initialState 4 Player.O).2.2 (by decide)⟩

lemma get?_set_self (l : List Cell) (i : Nat) (a : Cell)
    (h : i < l.length) : (l.set i a).get? i = some a := by
  induction l generalizing i with
  | nil => simp at h
  | cons b l ih =>
    cases i with
    | zero => rfl
    | succ i => simpa using ih i (by simpa using h)

lemma get?_set_other (l : List Cell) (i j : Nat) (a : Cell)
    (h : i ≠ j) : (l.set i a).get? j = l.get? j := by
  induction l generalizing i j with
  | nil => simp
  | cons b l ih =>
    cases i with
    | zero =>
      cases j with
      | zero => exact absurd rfl h
      | succ j => rfl
    | succ i =>
      cases j with
      | zero => rfl
      | succ j => simpa using ih i j (fun hc => h (by rw [hc]))

lemma jsGet_nullv_iff (cells : List Cell) (idx : Int) :
    jsGet cells idx = JsCellVal.nullv ↔
      0 ≤ idx ∧ cells.get? idx.toNat = some none := by
  rw [jsGet]
  by_cases h0 : 0 ≤ idx
  · rw [if_pos h0]
    cases hg : cells.get? idx.toNat with
    | none => simp [h0, hg]
    | some c => cases c <;> simp [h0, hg]
  · rw [if_neg h0]
    simp [h0]

lemma applyMove_accepted_cells (s : GameState) (idx : Int)
    (h : validateMove s idx = none) :
    (applyMove s idx).1.cells = setCell s.cells idx s.currentPlayer := by
  cases hcw : checkWin (setCell s.cells idx s.currentPlayer) with
  | some result => rw [applyMove_of_validate_none_ended s idx result h hcw]
  | none => rw [applyMove_of_validate_none_continued s idx h hcw]

/-- C7: every accepted click is at an in-range index `n` whose cell was
Empty; after the click that one cell holds the moving player's mark and
every other cell is unchanged (so no accepted move ever overwrites a
non-Empty cell or empties a cell). -/
theorem applyMove_accepted_cell_frame (s : GameState) (idx : Int)
    (hlen : s.cells.length = 9)
    (hacc : ∀ r, (applyMove s idx).2 ≠ MoveOutcome.rejected r) :
    ∃ n : Nat, idx = (n : Int) ∧ n < 9 ∧
      s.cells.get? n = some none ∧
      (applyMove s idx).1.cells.get? n = some (some s.currentPlayer) ∧
      ∀ m : Nat, m ≠ n →
        (applyMove s idx).1.cells.get? m = s.cells.get? m := by
  have hval : validateMove s idx = none := by
    cases hval : validateMove s idx with
    | none => rfl
    | some r =>
      exact absurd (by rw [applyMove_of_validate_some s idx r hval]) (hacc r)
  obtain ⟨hp, hf, hv⟩ := (validateMove_none_iff s idx).mp hval
  obtain ⟨h0, hg⟩ := (jsGet_nullv_iff s.cells idx).mp hv
  have hlt : idx.toNat < 9 := by
    by_contra h9
    rw [List.get?_eq_none.mpr (by omega)] at hg
    exact Option.noConfusion hg
  have hcells : (applyMove s idx).1.cells =
      s.cells.set idx.toNat (some s.currentPlayer) := by
    rw [applyMove_accepted_cells s idx hval, setCell, if_pos h0]
  refine ⟨idx.toNat, (Int.toNat_of_nonneg h0).symm, hlt, hg, ?_, ?_⟩
  · rw [hcells]
    exact get?_set_self s.cells idx.toNat (some s.currentPlayer) (by omega)
  · intro m hm
    rw [hcells]
    exact get?_set_other s.cells idx.toNat m (some s.currentPlayer)
      (fun hc => hm hc.symm)

/-- C7 witness: from the initial state, clicking cell 4 writes X into
cell 4, which was Empty, and leaves the other eight cells unchanged. -/
theorem applyMove_accepted_cell_frame_witness :
    initialState.cells.length = 9 ∧
    (∀ r, (applyMove initialState 4).2 ≠ MoveOutcome.rejected r) ∧
    (∃ n : Nat, (4 : Int) = (n : Int) ∧ n < 9 ∧
      initialState.cells.get? n = some none ∧
      (applyMove initialState 4).1.cells.get? n =
        some (some initialState.currentPlayer) ∧
      ∀ m : Nat, m ≠ n →
        (applyMove initialState 4).1.cells.get? m =
          initialState.cells.get? m) :=
  ⟨by decide,
   fun r h => MoveOutcome.noConfusion
     ((by decide : (applyMove initialState 4).2 =
        MoveOutcome.continued Player.O).symm.trans h),
   applyMove_accepted_cell_frame initialState 4 (by decide)
     (fun r h => MoveOutcome.noConfusion
       ((by decide : (applyMove initialState 4).2 =
          MoveOutcome.continued Player.O).symm.trans h))⟩

/-- C8: `reset` never changes any score counter; each click leaves every
counter non-decreasing; and a terminal click increments exactly one
counter by one — the winner's counter on a win, `draws` on a draw —
while a non-terminal click leaves the score unchanged. -/
theorem score_update (s : GameState) (idx : Int) :
    (reset s).score = s.score ∧
    s.score.X ≤ (applyMove s idx).1.score.X ∧
    s.score.O ≤ (applyMove s idx).1.score.O ∧
    s.score.draws ≤ (applyMove s idx).1.score.draws ∧
    (∀ t, (applyMove s idx).2 =
        MoveOutcome.ended (GameResult.winner Player.X t) →
      (applyMove s idx).1.score =
        { X := s.score.X + 1, O := s.score.O, draws := s.score.draws }) ∧
    (∀ t, (applyMove s idx).2 =
        MoveOutcome.ended (GameResult.winner Player.O t) →
      (applyMove s idx).1.score =
        { X := s.score.X, O := s.score.O + 1, draws := s.score.draws }) ∧
    ((applyMove s idx).2 = MoveOutcome.ended GameResult.draw →
      (applyMove s idx).1.score =
        { X := s.score.X, O := s.score.O, draws := s.score.draws + 1 }) ∧
    ((∀ r, (applyMove s idx).2 ≠ MoveOutcome.ended r) →
      (applyMove s idx).1.score = s.score) := by
  cases hval : validateMove s idx with
  | some r =>
    rw [applyMove_of_validate_some s idx r hval]
    exact ⟨rfl, le_refl _, le_refl _, le_refl _,
      fun t h => absurd h (by simp), fun t h => absurd h (by simp),
      fun h => absurd h (by simp), fun _ => rfl⟩
  | none =>
    cases hcw : checkWin (setCell s.cells idx s.currentPlayer) with
    | none =>
      rw [applyMove_of_validate_none_continued s idx hval hcw]
      exact ⟨rfl, le_refl _, le_refl _, le_refl _,
        fun t h => absurd h (by simp), fun t h => absurd h (by simp),
        fun h => absurd h (by simp), fun _ => rfl⟩
    | some result =>
      rw [applyMove_of_validate_none_ended s idx result hval hcw]
      cases result with
      | draw =>
        exact ⟨rfl, le_refl _, le_refl _, Nat.le_succ _,
          fun t h => absurd h (by simp), fun t h => absurd h (by simp),
          fun _ => rfl, fun h => absurd rfl (h GameResult.draw)⟩
      | winner p t0 =>
        cases p with
        | X =>
          exact ⟨rfl, Nat.le_succ _, le_refl _, le_refl _,
            fun t h => rfl, fun t h => absurd h (by simp),
            fun h => absurd h (by simp),
            fun h => absurd rfl (h (GameResult.winner Player.X t0))⟩
        | O =>
          exact ⟨rfl, le_refl _, Nat.le_succ _, le_refl _,
            fun t h => absurd h (by simp), fun t h => rfl,
            fun h => absurd h (by simp),
            fun h => absurd rfl (h (GameResult.winner Player.O t0))⟩

/-- C8 witness: X completing the top row from `nearWinExample` ends the
game and increments exactly the X counter; a reset keeps the score. -/
theorem score_update_witness :
    (reset nearWinExample).score = nearWinExample.score ∧
    (applyMove nearWinExample 2).2 =
      MoveOutcome.ended (GameResult.winner Player.X (0, 1, 2)) ∧
    (applyMove nearWinExample 2).1.score =
      { X := nearWinExample.score.X + 1, O := nearWinExample.score.O,
        draws := nearWinExample.score.draws } :=
  ⟨(score_update nearWinExample 2).1, by decide,
   (score_update nearWinExample 2).2.2.2.2.1 (0, 1, 2) (by decide)⟩

/-- C9: the processing lock is never left held: every state reachable
from initialization by any sequence of clicks and resets has
`isProcessing = false`, because every completed click (accepted or
rejected) and every reset returns with the lock clear. -/
theorem lock_always_free (s : GameState) (h : Reachable s) :
    s.isProcessing = false := by
  induction h with
  | init => rfl
  | move s' idx hr ih =>
    cases hval : validateMove s' idx with
    | some r =>
      rw [applyMove_of_validate_some s' idx r hval]
      exact ih
    | none =>
      cases hcw : checkWin (setCell s'.cells idx s'.currentPlayer) with
      | some result =>
        rw [applyMove_of_validate_none_ended s' idx result hval hcw]
      | none =>
        rw [applyMove_of_validate_none_continued s' idx hval hcw]
  | reset s' hr ih => rfl

/-- C9 witness: after a click on cell 4 and a reset from the initial
state, the lock is clear. -/
theorem lock_always_free_witness :
    Reachable (reset (applyMove initialState 4).1) ∧
    (reset (applyMove initialState 4).1).isProcessing = false :=
  ⟨Reachable.reset _ (Reachable.move initialState 4 Reachable.init),
   lock_always_free (reset (applyMove initialState 4).1)
     (Reachable.reset _ (Reachable.move initialState 4 Reachable.init))⟩

/-- C10: a click at an index outside 0..8 while the game is live and the
lock is free reads `undefined` from the board, is therefore rejected as
`cellOccupied` with occupant `undefined` (since `undefined !== null`),
and changes nothing. -/
theorem applyMove_out_of_range (s : GameState) (idx : Int)
    (hlen : s.cells.length = 9) (hlock : s.isProcessing = false)
    (hfin : s.finished = false) (hidx : idx < 0 ∨ 9 ≤ idx) :
    (applyMove s idx).2 =
      MoveOutcome.rejected (MoveFailure.cellOccupied JsCellVal.undef) ∧
    (applyMove s idx).1 = s := by
  have hjs : jsGet s.cells idx = JsCellVal.undef := by
    rcases hidx with h0 | h9
    · rw [jsGet, if_neg (by omega)]
    · have h0 : 0 ≤ idx := by omega
      have hge : s.cells.length ≤ idx.toNat := by omega
      rw [jsGet, if_pos h0, List.get?_eq_none.mpr hge]
  have hval : validateMove s idx =
      some (MoveFailure.cellOccupied JsCellVal.undef) := by
    rw [validateMove, if_neg (by simp [hlock]), if_neg (by simp [hfin]), hjs]
  rw [applyMove_of_validate_some s idx _ hval]
  exact ⟨rfl, rfl⟩

/-- C10 witness: from the initial state, a click at index 9 and a click
at index -1 are both rejected as occupied-by-undefined and change
nothing. -/
theorem applyMove_out_of_range_witness :
    ((applyMove initialState 9).2 =
      MoveOutcome.rejected (MoveFailure.cellOccupied JsCellVal.undef) ∧
     (applyMove initialState 9).1 = initialState) ∧
    ((applyMove initialState (-1)).2 =
      MoveOutcome.rejected (MoveFailure.cellOccupied JsCellVal.undef) ∧
     (applyMove initialState (-1)).1 = initialState) :=
  ⟨applyMove_out_of_range initialState 9 (by decide) rfl rfl
     (Or.inr (by decide)),
   applyMove_out_of_range initialState (-1) (by decide) rfl rfl
     (Or.inl (by decide))⟩
